import Mathlib

/-!
Verification of the manga-to-Kindle CBZ converter (`manga.py`).

The development shallowly embeds the two core functions of the source,
`convert_page_to_target` (page geometry + enhancement pipeline) and
`process_volume_source` (volume orchestration: resolution, per-page fault
isolation, archive assembly, progress reporting, scratch cleanup).

Modelling conventions:
* Python float arithmetic is embedded as exact rational arithmetic (ℚ);
  Python's `round` (banker's rounding, half to even) is `pyRound`, Python's
  `int` (truncation toward zero) is `pyInt`, and Python's integer `//`
  (floor division) is `Int.fdiv`.
* A PIL image is embedded as its pixel geometry plus the provenance list of
  the geometry-relevant canvas operations applied to it (`ImgOp`); PIL's
  `resize`, `paste`, `ImageEnhance.Contrast.enhance` and
  `ImageFilter.UnsharpMask` keep or set dimensions exactly as PIL does.
* Filesystem inputs are embedded as an `InputPath` record carrying the facts
  the source branches on: the final path component (used for suffix and stem),
  whether the path is a directory, its (naturally sorted) directory listing,
  the (naturally sorted) entry list of the file read as a zip archive
  (`none` when `zipfile.ZipFile` raises), and, for the single-image case,
  whether the page fails to decode/encode.  A page's `corrupt` flag models
  "the body of the per-page `try` block raises".
* Exceptions raised by `process_volume_source` are an `Except` error;
  the `finally` cleanup is returned as a Boolean "removal attempted" flag.
-/

set_option linter.unusedVariables false

namespace MangaKindle

/-- Python 3 `round()` on an exact rational: round half to even. -/
def pyRound (q : ℚ) : ℤ :=
  if q - q.floor < 1/2 then q.floor
  else if 1/2 < q - q.floor then q.floor + 1
  else if q.floor % 2 = 0 then q.floor else q.floor + 1

/-- Python `int()` on an exact rational: truncation toward zero. -/
def pyInt (q : ℚ) : ℤ :=
  if 0 ≤ q then q.floor else -(Rat.floor (-q))

/-- Geometry-relevant operations applied to a PIL canvas, in application
order: pasting an image of size `(w, h)` at offset `(x, y)`, a contrast
enhancement of the given factor, and an unsharp mask filter of the given
radius, percent and threshold. -/
inductive ImgOp where
  | pasteOp (w h x y : ℤ)
  | contrastOp (amount : ℚ)
  | unsharpOp (radius percent threshold : ℤ)
deriving DecidableEq

/-- A PIL image: pixel dimensions, fill color, and the provenance of canvas
operations applied to it. -/
structure Img where
  width : ℤ
  height : ℤ
  color : ℤ × ℤ × ℤ
  ops : List ImgOp
deriving DecidableEq

/-- PIL `Image.new(mode, (w, h), color)`: fresh canvas of exactly `(w, h)`. -/
def Image.new (w h : ℤ) (color : ℤ × ℤ × ℤ) : Img :=
  ⟨w, h, color, []⟩

/-- PIL `img.convert('RGB')`: dimensions unchanged (pixel mode not modelled). -/
def Img.convertRGB (img : Img) : Img := img

/-- PIL `img.resize((w, h), LANCZOS)`: a new image of exactly `(w, h)`. -/
def Img.resize (img : Img) (w h : ℤ) : Img :=
  ⟨w, h, img.color, img.ops⟩

/-- PIL `base.paste(src, (x, y))`: dimensions of `base` unchanged; records the
pasted image's size and offset. -/
def Img.paste (base src : Img) (x y : ℤ) : Img :=
  ⟨base.width, base.height, base.color, base.ops ++ [ImgOp.pasteOp src.width src.height x y]⟩

/-- PIL `ImageEnhance.Contrast(img).enhance(amount)`: dimensions unchanged. -/
def Img.enhanceContrast (img : Img) (amount : ℚ) : Img :=
  ⟨img.width, img.height, img.color, img.ops ++ [ImgOp.contrastOp amount]⟩

/-- PIL `img.filter(ImageFilter.UnsharpMask(radius, percent, threshold))`:
dimensions unchanged. -/
def Img.unsharpMask (img : Img) (radius percent threshold : ℤ) : Img :=
  ⟨img.width, img.height, img.color, img.ops ++ [ImgOp.unsharpOp radius percent threshold]⟩

/-- Whether a canvas operation is an unsharp-mask filter. -/
def ImgOp.isUnsharp : ImgOp → Bool
  | ImgOp.unsharpOp _ _ _ => true
  | _ => false

def DEFAULT_WIDTH : ℤ := 1072

def DEFAULT_HEIGHT : ℤ := 1448

/-- The scaling step of `convert_page_to_target` (source lines 77-86):
scale by height; if the resulting width overflows `target_w`, rescale by
width instead.  Returns the dimensions handed to `resize`. -/
def resizeDims (original_w original_h target_w target_h : ℤ) : ℤ × ℤ :=
  let scale_h : ℚ := (target_h : ℚ) / (original_h : ℚ)
  let new_w : ℤ := pyRound ((original_w : ℚ) * scale_h)
  let new_h : ℤ := pyRound ((original_h : ℚ) * scale_h)
  if new_w > target_w then
    let scale_w : ℚ := (target_w : ℚ) / (original_w : ℚ)
    (pyRound ((original_w : ℚ) * scale_w), pyRound ((original_h : ℚ) * scale_w))
  else
    (new_w, new_h)

/-- The centering step of `convert_page_to_target` (source lines 93-94):
`paste_x = (target_w - new_w) // 2`, `paste_y = (target_h - new_h) // 2`,
with Python's floor division. -/
def pasteOffsets (original_w original_h target_w target_h : ℤ) : ℤ × ℤ :=
  let wh := resizeDims original_w original_h target_w target_h
  (Int.fdiv (target_w - wh.1) 2, Int.fdiv (target_h - wh.2) 2)

/-- Source `convert_page_to_target` (lines 63-106): height-first scaling with
width fallback, Lanczos resize, centered paste onto a fresh background canvas
of exactly `(target_w, target_h)`, then optional contrast enhancement
(skipped when the factor is 1.0) and optional unsharp-mask sharpening
(radius 1, percent `int(150 * sharpen_amount)`, threshold 3, skipped unless
`do_sharpen` and `sharpen_amount > 0`). -/
def convert_page_to_target (img : Img) (target_w target_h : ℤ)
    (background : ℤ × ℤ × ℤ) (sharpen_amount contrast_amount : ℚ)
    (do_sharpen do_contrast : Bool) (jpeg_quality : ℤ) : Img :=
  let rgb := img.convertRGB
  let wh := resizeDims img.width img.height target_w target_h
  let resized := rgb.resize wh.1 wh.2
  let background_image := Image.new target_w target_h background
  let xy := pasteOffsets img.width img.height target_w target_h
  let background_image := background_image.paste resized xy.1 xy.2
  let background_image :=
    if do_contrast = true ∧ contrast_amount ≠ 1 then
      background_image.enhanceContrast contrast_amount
    else background_image
  if do_sharpen = true ∧ 0 < sharpen_amount then
    background_image.unsharpMask 1 (pyInt (150 * sharpen_amount)) 3
  else background_image

/-- Modelled from the spec (§4.2 steps 2-3), for comparison with the
source-derived `resizeDims`: compute `scaleH = targetH / sourceH` with
candidates `w1 = round(sourceW * scaleH)`, `h1 = round(sourceH * scaleH)`;
if and only if `w1 > targetW`, recompute `scaleW = targetW / sourceW` and use
`(round(sourceW * scaleW), round(sourceH * scaleW))`, else use `(w1, h1)`. -/
def specFinalDims (sourceW sourceH targetW targetH : ℤ) : ℤ × ℤ :=
  let scaleH : ℚ := (targetH : ℚ) / (sourceH : ℚ)
  let w1 : ℤ := pyRound ((sourceW : ℚ) * scaleH)
  let h1 : ℤ := pyRound ((sourceH : ℚ) * scaleH)
  if w1 > targetW then
    let scaleW : ℚ := (targetW : ℚ) / (sourceW : ℚ)
    (pyRound ((sourceW : ℚ) * scaleW), pyRound ((sourceH : ℚ) * scaleW))
  else
    (w1, h1)

/-- The characters after the last dot of a file name, `none` when the name
has no dot. -/
def afterLastDot : List Char → Option (List Char)
  | [] => none
  | c :: rest =>
    match afterLastDot rest with
    | some s => some s
    | none => if c = '.' then some rest else none

/-- `pathlib.Path(name).suffix`: the extension including the leading dot,
empty when there is none. -/
def path_suffix (name : String) : String :=
  match afterLastDot name.toList with
  | some s => String.mk ('.' :: s)
  | none => ""

/-- `pathlib.Path(name).stem`: the name with its suffix removed. -/
def path_stem (name : String) : String :=
  match afterLastDot name.toList with
  | some s => String.mk (name.toList.take (name.toList.length - s.length - 1))
  | none => name

/-- ASCII lowercasing of one character, as `str.lower()` acts on extensions. -/
def lowerAscii (c : Char) : Char :=
  if 'A' ≤ c ∧ c ≤ 'Z' then Char.ofNat (c.toNat + 32) else c

/-- `str.lower()` (ASCII fragment, which is all extensions use). -/
def str_lower (s : String) : String :=
  String.mk (s.toList.map lowerAscii)

/-- The image extensions accepted by the source (line 41). -/
def IMAGE_SUFFIXES : List String :=
  [".jpg", ".jpeg", ".png", ".webp", ".bmp", ".gif", ".tiff"]

/-- Source `is_image_file` (lines 40-41): suffix test, case-insensitive. -/
def is_image_file (name : String) : Bool :=
  IMAGE_SUFFIXES.contains (str_lower (path_suffix name))

/-- One candidate page: its file (or archive-entry) name and whether the
per-page decode/transform/encode raises on it. -/
structure PageFile where
  name : String
  corrupt : Bool
deriving DecidableEq

/-- One input reference handed to `process_volume_source`, carrying the
filesystem facts the source branches on.  `dirEntries` is the naturally
sorted listing used when the path is a directory; `zipEntries` is the
naturally sorted entry list obtained by reading the file as a zip archive,
`none` when `zipfile.ZipFile` raises; `corrupt` is the per-page outcome for
the single-image-file case. -/
structure InputPath where
  name : String
  isDir : Bool
  dirEntries : List PageFile
  zipEntries : Option (List PageFile)
  corrupt : Bool
deriving DecidableEq

/-- The fatal failures of `process_volume_source`: the explicit
`ValueError`s of lines 124 and 127, and a propagated zip-reading error
(`zipfile.BadZipFile` / `FileNotFoundError`) from line 44. -/
inductive VolError where
  | unsupportedInput
  | noPagesFound
  | zipReadError
deriving DecidableEq

/-- Source lines 112-124: resolve an input into its ordered page sequence.
Directories list their image files; `.cbz`/`.zip` suffixes (case-insensitive)
read the file as a zip archive and keep its image entries; a single image
file is a singleton; anything else raises `ValueError` (unsupported). -/
def resolvePages (input : InputPath) : Except VolError (List PageFile) :=
  if input.isDir then
    Except.ok (input.dirEntries.filter fun p => is_image_file p.name)
  else if str_lower (path_suffix input.name) = ".cbz" ∨
      str_lower (path_suffix input.name) = ".zip" then
    match input.zipEntries with
    | none => Except.error VolError.zipReadError
    | some entries => Except.ok (entries.filter fun p => is_image_file p.name)
  else if is_image_file input.name then
    Except.ok [⟨input.name, input.corrupt⟩]
  else
    Except.error VolError.unsupportedInput

/-- The decimal digit character for `d < 10`. -/
def digitChar (d : ℕ) : Char := Char.ofNat (48 + d)

/-- Decimal digits of `n`, most significant first, given enough fuel. -/
def natToDigits : ℕ → ℕ → List Char
  | 0, _ => []
  | _ + 1, 0 => []
  | fuel + 1, n => natToDigits fuel (n / 10) ++ [digitChar (n % 10)]

/-- Decimal representation of a natural number. -/
def natRepr (n : ℕ) : List Char :=
  if n = 0 then ['0'] else natToDigits (n + 1) n

/-- Python `f"{n:04d}"` for a nonnegative `n`: zero-pad to width 4, wider
numbers are kept whole. -/
def pad4 (n : ℕ) : String :=
  String.mk (List.replicate (4 - (natRepr n).length) '0' ++ natRepr n)

/-- State accumulated by the page loop of `process_volume_source`: the
successfully encoded output files in attempt order, the number of per-page
error log lines, and the reported progress percentages in report order. -/
structure LoopState where
  files : List String
  errorLogs : ℕ
  progress : List ℚ
deriving DecidableEq

/-- Source lines 131-152: the per-page loop.  Page attempts are numbered from
`idx`; a corrupt page logs an error and is skipped, a good page appends
`f"{idx:04d}.jpg"` to the processed files; after every attempt the progress
callback receives `idx / total * 100`. -/
def pageLoop : List PageFile → ℕ → ℕ → LoopState
  | [], _, _ => ⟨[], 0, []⟩
  | p :: rest, idx, total =>
    let r := pageLoop rest (idx + 1) total
    if p.corrupt then
      ⟨r.files, r.errorLogs + 1, ((idx : ℚ) / (total : ℚ) * 100) :: r.progress⟩
    else
      ⟨(pad4 idx ++ ".jpg") :: r.files, r.errorLogs,
        ((idx : ℚ) / (total : ℚ) * 100) :: r.progress⟩

/-- The observable outcome of one successful volume run: the output archive
name, its entries in written order, the per-page error log count, and the
progress reports in order. -/
structure VolResult where
  archiveName : String
  archiveEntries : List String
  errorLogs : ℕ
  progress : List ℚ
deriving DecidableEq

/-- Source lines 126-160 after resolution: raise when zero pages resolved,
otherwise run the page loop (attempt indices starting at 1) and write the
archive `"<stem> - kindle.cbz"` containing the processed files in order. -/
def runPages (pages : List PageFile) (stem : String) : Except VolError VolResult :=
  if pages.length = 0 then Except.error VolError.noPagesFound
  else
    let st := pageLoop pages 1 pages.length
    Except.ok ⟨stem ++ " - kindle.cbz", st.files, st.errorLogs, st.progress⟩

/-- Source `process_volume_source` (lines 108-176).  The first component is
the outcome (the archive is produced exactly on `Except.ok`); the second
component models the `finally` block: `true` iff removal of the scratch
directory is attempted, which happens unless `keep_temp` is set. -/
def process_volume_source (input : InputPath) (keep_temp : Bool) :
    Except VolError VolResult × Bool :=
  let res :=
    match resolvePages input with
    | Except.error e => Except.error e
    | Except.ok pages => runPages pages (path_stem input.name)
  (res, !keep_temp)

/-- The 1-based attempt indices of the non-corrupt pages, counting from `i`:
the ordinals that appear in the output archive. -/
def successIdxFrom : List PageFile → ℕ → List ℕ
  | [], _ => []
  | p :: rest, i =>
    if p.corrupt then successIdxFrom rest (i + 1)
    else i :: successIdxFrom rest (i + 1)

/-- A sample decoded page image used to instantiate the page-transform
theorems. -/
def imgEx : Img := ⟨800, 1200, (0, 0, 0), []⟩

/-- A sample 4-page directory volume whose second page is corrupt. -/
def pagesEx4 : List PageFile :=
  [⟨"p1.jpg", false⟩, ⟨"p2.jpg", true⟩, ⟨"p3.jpg", false⟩, ⟨"p4.jpg", false⟩]

/-- The directory input holding `pagesEx4`. -/
def inputEx4 : InputPath := ⟨"vol", true, pagesEx4, none, false⟩

/-- A sample 10-page directory volume whose seventh page is corrupt. -/
def pagesEx10 : List PageFile :=
  [⟨"p01.jpg", false⟩, ⟨"p02.jpg", false⟩, ⟨"p03.jpg", false⟩,
   ⟨"p04.jpg", false⟩, ⟨"p05.jpg", false⟩, ⟨"p06.jpg", false⟩,
   ⟨"p07.jpg", true⟩, ⟨"p08.jpg", false⟩, ⟨"p09.jpg", false⟩,
   ⟨"p10.jpg", false⟩]

/-- The directory input holding `pagesEx10`. -/
def inputEx10 : InputPath := ⟨"vol10", true, pagesEx10, none, false⟩

/-- An input that is neither a directory, nor suffixed like a zip archive,
nor an image file. -/
def inputExText : InputPath := ⟨"notes.txt", false, [], none, false⟩

/-- A directory input that resolves to zero pages. -/
def inputExEmpty : InputPath := ⟨"empty", true, [], none, false⟩

/-- A file with a `.zip` suffix whose contents cannot be read as a zip
archive. -/
def inputExBadZip : InputPath := ⟨"broken.zip", false, [], none, false⟩

/-! ### Helper lemmas -/

theorem ratFloor_eq_intFloor (q : ℚ) : q.floor = ⌊q⌋ := by
  rw [Rat.floor_def', Rat.floor_def]

theorem pyRound_le (q : ℚ) : (pyRound q : ℚ) ≤ q + 1/2 := by
  unfold pyRound
  rw [ratFloor_eq_intFloor]
  have h1 := Int.floor_le q
  have h2 := Int.lt_floor_add_one q
  split_ifs <;> push_cast <;> linarith

theorem le_pyRound (q : ℚ) : q - 1/2 ≤ (pyRound q : ℤ) := by
  unfold pyRound
  rw [ratFloor_eq_intFloor]
  have h1 := Int.floor_le q
  have h2 := Int.lt_floor_add_one q
  split_ifs <;> push_cast <;> linarith

theorem pyRound_intCast (n : ℤ) : pyRound (n : ℚ) = n := by
  unfold pyRound
  rw [ratFloor_eq_intFloor, Int.floor_intCast]
  norm_num

theorem pageLoop_files (pages : List PageFile) (i total : ℕ) :
    (pageLoop pages i total).files =
      (successIdxFrom pages i).map (fun k => pad4 k ++ ".jpg") := by
  induction pages generalizing i with
  | nil => rfl
  | cons p rest ih =>
    by_cases hc : p.corrupt <;> simp [pageLoop, successIdxFrom, hc, ih]

theorem pageLoop_errorLogs (pages : List PageFile) (i total : ℕ) :
    (pageLoop pages i total).errorLogs = pages.countP (fun p => p.corrupt) := by
  induction pages generalizing i with
  | nil => rfl
  | cons p rest ih =>
    by_cases hc : p.corrupt <;> simp [pageLoop, List.countP_cons, hc, ih]

theorem pageLoop_progress (pages : List PageFile) (i total : ℕ) :
    (pageLoop pages i total).progress =
      (List.range pages.length).map
        (fun k => (((i + k : ℕ) : ℚ) / (total : ℚ) * 100)) := by
  induction pages generalizing i with
  | nil => rfl
  | cons p rest ih =>
    by_cases hc : p.corrupt
    all_goals
      simp [pageLoop, hc, ih, List.range_succ_eq_map, List.map_map, Function.comp]
      intro a _
      ring_nf

theorem successIdxFrom_length_add (pages : List PageFile) (i : ℕ) :
    (successIdxFrom pages i).length + pages.countP (fun p => p.corrupt) =
      pages.length := by
  induction pages generalizing i with
  | nil => rfl
  | cons p rest ih =>
    have h := ih (i + 1)
    by_cases hc : p.corrupt <;>
      simp [successIdxFrom, List.countP_cons, hc] <;> omega

theorem successIdxFrom_lb (pages : List PageFile) (i j : ℕ)
    (hj : j ∈ successIdxFrom pages i) : i ≤ j := by
  induction pages generalizing i with
  | nil => simp [successIdxFrom] at hj
  | cons p rest ih =>
    by_cases hc : p.corrupt
    · rw [successIdxFrom, if_pos hc] at hj
      have := ih (i + 1) hj
      omega
    · rw [successIdxFrom, if_neg hc, List.mem_cons] at hj
      rcases hj with h | hj
      · omega
      · have := ih (i + 1) hj
        omega

theorem successIdxFrom_ub (pages : List PageFile) (i j : ℕ)
    (hj : j ∈ successIdxFrom pages i) : j < i + pages.length := by
  induction pages generalizing i with
  | nil => simp [successIdxFrom] at hj
  | cons p rest ih =>
    rw [List.length_cons]
    by_cases hc : p.corrupt
    · rw [successIdxFrom, if_pos hc] at hj
      have := ih (i + 1) hj
      omega
    · rw [successIdxFrom, if_neg hc, List.mem_cons] at hj
      rcases hj with h | hj
      · omega
      · have := ih (i + 1) hj
        omega

theorem successIdxFrom_pairwise (pages : List PageFile) (i : ℕ) :
    (successIdxFrom pages i).Pairwise (· < ·) := by
  induction pages generalizing i with
  | nil => exact List.Pairwise.nil
  | cons p rest ih =>
    by_cases hc : p.corrupt
    · rw [successIdxFrom, if_pos hc]
      exact ih (i + 1)
    · rw [successIdxFrom, if_neg hc]
      refine List.Pairwise.cons (fun j hj => ?_) (ih (i + 1))
      have := successIdxFrom_lb rest (i + 1) j hj
      omega

theorem successIdxFrom_mem (pages : List PageFile) (i k : ℕ) (p : PageFile)
    (hk : pages[k]? = some p) :
    (i + k ∈ successIdxFrom pages i ↔ p.corrupt = false) := by
  induction pages generalizing i k with
  | nil => simp at hk
  | cons q rest ih =>
    cases k with
    | zero =>
      rw [List.getElem?_cons_zero, Option.some_inj] at hk
      obtain rfl : q = p := hk
      rw [Nat.add_zero]
      by_cases hc : q.corrupt
      · rw [successIdxFrom, if_pos hc]
        constructor
        · intro hmem
          exact absurd (successIdxFrom_lb rest (i + 1) i hmem) (by omega)
        · intro hf
          rw [hf] at hc
          cases hc
      · rw [successIdxFrom, if_neg hc, List.mem_cons]
        constructor
        · intro _
          exact Bool.eq_false_iff.mpr hc
        · intro _
          exact Or.inl rfl
    | succ k =>
      rw [List.getElem?_cons_succ] at hk
      have heq : i + (k + 1) = (i + 1) + k := by omega
      by_cases hc : q.corrupt
      · rw [successIdxFrom, if_pos hc, heq]
        exact ih (i + 1) k hk
      · rw [successIdxFrom, if_neg hc, heq, List.mem_cons]
        have hne : (i + 1) + k ≠ i := by omega
        constructor
        · rintro (h | h)
          · exact absurd h hne
          · exact (ih (i + 1) k hk).mp h
        · intro h
          exact Or.inr ((ih (i + 1) k hk).mpr h)

/-! ### Claim theorems -/

/-- C1: for every decoded source image with positive dimensions and every
positive target geometry, the image returned by `convert_page_to_target` has
dimensions exactly `(target_w, target_h)`, regardless of the source aspect
ratio and of the contrast/sharpen option settings. -/
theorem claim_C1 (img : Img) (target_w target_h : ℤ) (background : ℤ × ℤ × ℤ)
    (sharpen_amount contrast_amount : ℚ) (do_sharpen do_contrast : Bool)
    (jpeg_quality : ℤ) (hw : 0 < img.width) (hh : 0 < img.height)
    (htw : 0 < target_w) (hth : 0 < target_h) :
    (convert_page_to_target img target_w target_h background sharpen_amount
        contrast_amount do_sharpen do_contrast jpeg_quality).width = target_w ∧
    (convert_page_to_target img target_w target_h background sharpen_amount
        contrast_amount do_sharpen do_contrast jpeg_quality).height = target_h := by
  unfold convert_page_to_target
  constructor <;> (split_ifs <;> rfl)

/-- Witness for C1 at the sample image `imgEx` (800×1200) and the default
1072×1448 target. -/
theorem claim_C1_witness :
    (convert_page_to_target imgEx 1072 1448 (255, 255, 255) 1 (108/100)
        true true 92).width = 1072 ∧
    (convert_page_to_target imgEx 1072 1448 (255, 255, 255) 1 (108/100)
        true true 92).height = 1448 :=
  claim_C1 imgEx 1072 1448 (255, 255, 255) 1 (108/100) true true 92
    (by decide) (by decide) (by decide) (by decide)

/-- C2: the scaling step of the source (`resizeDims`) computes exactly the
spec's formula: `scaleH = targetH / sourceH` with candidates
`w1 = round(sourceW * scaleH)`, `h1 = round(sourceH * scaleH)`; if and only
if `w1 > targetW` it recomputes `scaleW = targetW / sourceW` and uses
`(round(sourceW * scaleW), round(sourceH * scaleW))`, otherwise `(w1, h1)`
(the branch structure is `specFinalDims`, written from the spec's words). -/
theorem claim_C2 (sourceW sourceH targetW targetH : ℤ) :
    resizeDims sourceW sourceH targetW targetH =
      specFinalDims sourceW sourceH targetW targetH := rfl

/-- C5: the resized image is pasted at offset `floor((target - scaled) / 2)`
on each axis; when the post-height-scale width is at most `target_w` the
vertical offset is 0 (exactly, in exact arithmetic) and the horizontal offset
is nonnegative; when the fallback triggers the horizontal offset is 0 and the
vertical offset is nonnegative. -/
theorem claim_C5 (sw sh tw th : ℤ) (hsw : 0 < sw) (hsh : 0 < sh)
    (htw : 0 < tw) (hth : 0 < th) :
    pasteOffsets sw sh tw th =
      (Int.fdiv (tw - (resizeDims sw sh tw th).1) 2,
        Int.fdiv (th - (resizeDims sw sh tw th).2) 2) ∧
    (pyRound ((sw : ℚ) * ((th : ℚ) / (sh : ℚ))) ≤ tw →
      (pasteOffsets sw sh tw th).2 = 0 ∧ 0 ≤ (pasteOffsets sw sh tw th).1) ∧
    (tw < pyRound ((sw : ℚ) * ((th : ℚ) / (sh : ℚ))) →
      (pasteOffsets sw sh tw th).1 = 0 ∧ 0 ≤ (pasteOffsets sw sh tw th).2) := by
  have hshQ : ((sh : ℚ)) ≠ 0 := Int.cast_ne_zero.mpr (ne_of_gt hsh)
  have hswQ : ((sw : ℚ)) ≠ 0 := Int.cast_ne_zero.mpr (ne_of_gt hsw)
  have hh1 : (sh : ℚ) * ((th : ℚ) / (sh : ℚ)) = (th : ℚ) := by field_simp
  have hw2 : (sw : ℚ) * ((tw : ℚ) / (sw : ℚ)) = (tw : ℚ) := by field_simp
  refine ⟨rfl, ?_, ?_⟩
  · intro hle
    have hcond : ¬ (pyRound ((sw : ℚ) * ((th : ℚ) / (sh : ℚ))) > tw) :=
      not_lt.mpr hle
    have hdims : resizeDims sw sh tw th =
        (pyRound ((sw : ℚ) * ((th : ℚ) / (sh : ℚ))),
          pyRound ((sh : ℚ) * ((th : ℚ) / (sh : ℚ)))) := by
      simp only [resizeDims]
      rw [if_neg hcond]
    have hhEq : pyRound ((sh : ℚ) * ((th : ℚ) / (sh : ℚ))) = th := by
      rw [hh1]
      exact pyRound_intCast th
    constructor
    · simp only [pasteOffsets, hdims, hhEq, sub_self]
      exact Int.zero_fdiv 2
    · simp only [pasteOffsets, hdims]
      exact Int.fdiv_nonneg (by omega) (by norm_num)
  · intro hgt
    have hdims : resizeDims sw sh tw th =
        (pyRound ((sw : ℚ) * ((tw : ℚ) / (sw : ℚ))),
          pyRound ((sh : ℚ) * ((tw : ℚ) / (sw : ℚ)))) := by
      simp only [resizeDims]
      rw [if_pos hgt]
    have hwEq : pyRound ((sw : ℚ) * ((tw : ℚ) / (sw : ℚ))) = tw := by
      rw [hw2]
      exact pyRound_intCast tw
    have hx : (tw : ℚ) + 1/2 ≤ (sw : ℚ) * ((th : ℚ) / (sh : ℚ)) := by
      have h1 : (tw + 1 : ℤ) ≤ pyRound ((sw : ℚ) * ((th : ℚ) / (sh : ℚ))) := hgt
      have h2 : ((tw : ℚ) + 1) ≤
          ((pyRound ((sw : ℚ) * ((th : ℚ) / (sh : ℚ))) : ℤ) : ℚ) := by
        exact_mod_cast h1
      have h3 := pyRound_le ((sw : ℚ) * ((th : ℚ) / (sh : ℚ)))
      linarith
    have hshPos : (0 : ℚ) < (sh : ℚ) := by exact_mod_cast hsh
    have hswPos : (0 : ℚ) < (sw : ℚ) := by exact_mod_cast hsw
    have hyx : (sh : ℚ) * ((tw : ℚ) / (sw : ℚ)) < (th : ℚ) := by
      rw [← mul_div_assoc, div_lt_iff₀ hswPos]
      have hx' : ((tw : ℚ) + 1/2) * (sh : ℚ) ≤ (sw : ℚ) * (th : ℚ) := by
        rw [← mul_div_assoc] at hx
        exact (le_div_iff₀ hshPos).mp hx
      nlinarith
    have hhle : pyRound ((sh : ℚ) * ((tw : ℚ) / (sw : ℚ))) ≤ th := by
      have h3 := pyRound_le ((sh : ℚ) * ((tw : ℚ) / (sw : ℚ)))
      have h4 : ((pyRound ((sh : ℚ) * ((tw : ℚ) / (sw : ℚ))) : ℤ) : ℚ) <
          ((th + 1 : ℤ) : ℚ) := by
        push_cast
        linarith
      have h5 : pyRound ((sh : ℚ) * ((tw : ℚ) / (sw : ℚ))) < th + 1 := by
        exact_mod_cast h4
      omega
    constructor
    · simp only [pasteOffsets, hdims, hwEq, sub_self]
      exact Int.zero_fdiv 2
    · simp only [pasteOffsets, hdims]
      exact Int.fdiv_nonneg (by omega) (by norm_num)

/-- Witness for C5 at the spec's 800×1200 source and 1072×1448 target
(non-fallback branch). -/
theorem claim_C5_witness :
    (pasteOffsets 800 1200 1072 1448).2 = 0 ∧
      0 ≤ (pasteOffsets 800 1200 1072 1448).1 :=
  (claim_C5 800 1200 1072 1448 (by decide) (by decide) (by decide)
    (by decide)).2.1 (by norm_num [pyRound, Rat.floor_def'])

/-- C7 (amended): on the spec's worked examples with target 1072×1448, a
source of 800×1200 takes the height-first path with scaled width 965 ≤ 1072,
horizontal offset 53 and vertical offset 0; a source of 2000×1000 yields a
height-first width of 2896 > 1072 (the spec's figure 2894 is an arithmetic
slip), triggering the fallback with scaleW = 0.536, scaled height 536,
vertical offset 456 and horizontal offset 0. -/
theorem claim_C7 :
    resizeDims 800 1200 1072 1448 = (965, 1448) ∧
    pasteOffsets 800 1200 1072 1448 = (53, 0) ∧
    pyRound ((2000 : ℚ) * ((1448 : ℚ) / (1000 : ℚ))) = 2896 ∧
    (1072 : ℤ) < 2896 ∧
    ((1072 : ℚ) / (2000 : ℚ) = 536 / 1000) ∧
    resizeDims 2000 1000 1072 1448 = (1072, 536) ∧
    pasteOffsets 2000 1000 1072 1448 = (0, 456) := by
  have h1 : resizeDims 800 1200 1072 1448 = (965, 1448) := by
    norm_num [resizeDims, pyRound, Rat.floor_def']
  have h2 : resizeDims 2000 1000 1072 1448 = (1072, 536) := by
    norm_num [resizeDims, pyRound, Rat.floor_def']
  refine ⟨h1, ?_, ?_, by norm_num, by norm_num, h2, ?_⟩
  · simp only [pasteOffsets, h1]
    decide
  · norm_num [pyRound, Rat.floor_def']
  · simp only [pasteOffsets, h2]
    decide

/-- Counterexample to C7 as stated: the height-first candidate width for a
2000×1000 source scaled to height 1448 is 2896, not the claimed 2894 (the
fallback still triggers since 2896 > 1072). -/
theorem counterexample_C7 :
    pyRound ((2000 : ℚ) * ((1448 : ℚ) / (1000 : ℚ))) = 2896 ∧
    (2896 : ℤ) ≠ 2894 ∧
    resizeDims 2000 1000 1072 1448 = (1072, 536) := by
  refine ⟨?_, by decide, ?_⟩
  · norm_num [pyRound, Rat.floor_def']
  · norm_num [resizeDims, pyRound, Rat.floor_def']

/-- C9 (amended): whenever sharpening is enabled and the sharpen amount is
positive, the transform applies exactly one unsharp-mask filter, with radius
1, percent `int(150 × sharpenAmount)` (truncated toward zero, as the source's
`int(150*sharpen_amount)` computes), and threshold 3, as the last step after
the contrast adjustment; when sharpening is disabled or the amount is not
positive, no unsharp-mask filter is applied. -/
theorem claim_C9 (img : Img) (target_w target_h : ℤ) (background : ℤ × ℤ × ℤ)
    (sharpen_amount contrast_amount : ℚ) (do_sharpen do_contrast : Bool)
    (jpeg_quality : ℤ) :
    ((convert_page_to_target img target_w target_h background sharpen_amount
        contrast_amount do_sharpen do_contrast jpeg_quality).ops.filter
          ImgOp.isUnsharp =
      if do_sharpen = true ∧ 0 < sharpen_amount then
        [ImgOp.unsharpOp 1 (pyInt (150 * sharpen_amount)) 3]
      else []) ∧
    (do_sharpen = true → 0 < sharpen_amount →
      (convert_page_to_target img target_w target_h background sharpen_amount
          contrast_amount do_sharpen do_contrast jpeg_quality).ops.getLast? =
        some (ImgOp.unsharpOp 1 (pyInt (150 * sharpen_amount)) 3)) := by
  constructor
  · unfold convert_page_to_target
    split_ifs with h1 h2 h2 <;>
      simp [Img.paste, Image.new, Img.enhanceContrast, Img.unsharpMask,
        Img.resize, Img.convertRGB, ImgOp.isUnsharp, List.filter]
  · intro hds hs
    unfold convert_page_to_target
    rw [if_pos ⟨hds, hs⟩]
    split_ifs with h1 <;>
      simp [Img.paste, Image.new, Img.enhanceContrast, Img.unsharpMask,
        Img.resize, Img.convertRGB, List.getLast?_concat]

/-- Witness for C9 at a concrete enabled-sharpening call (amount 1). -/
theorem claim_C9_witness :
    (convert_page_to_target imgEx 1072 1448 (255, 255, 255) 1 (108/100)
        true true 92).ops.getLast? =
      some (ImgOp.unsharpOp 1 (pyInt (150 * 1)) 3) :=
  (claim_C9 imgEx 1072 1448 (255, 255, 255) 1 (108/100) true true 92).2
    rfl (by norm_num)

/-- Counterexample to C9 as stated: with sharpen amount 0.33 the filter the
code applies has percent `int(150 × 0.33) = 49`, which is not equal to
`150 × 0.33 = 49.5`. -/
theorem counterexample_C9 :
    (convert_page_to_target imgEx 1072 1448 (255, 255, 255) (33/100) (108/100)
        true true 92).ops.getLast? = some (ImgOp.unsharpOp 1 49 3) ∧
    ¬ ((49 : ℚ) = 150 * (33/100 : ℚ)) := by
  constructor
  · have hp : pyInt (150 * (33/100 : ℚ)) = 49 := by
      norm_num [pyInt, Rat.floor_def']
    unfold convert_page_to_target
    rw [if_pos ⟨rfl, by norm_num⟩]
    rw [hp]
    split_ifs with h1 <;>
      simp [Img.paste, Image.new, Img.enhanceContrast, Img.unsharpMask,
        Img.resize, Img.convertRGB, List.getLast?_concat]
  · norm_num

theorem process_ok (input : InputPath) (keep_temp : Bool)
    (pages : List PageFile) (hres : resolvePages input = Except.ok pages)
    (hne : pages.length ≠ 0) :
    (process_volume_source input keep_temp).1 =
      Except.ok ⟨path_stem input.name ++ " - kindle.cbz",
        (pageLoop pages 1 pages.length).files,
        (pageLoop pages 1 pages.length).errorLogs,
        (pageLoop pages 1 pages.length).progress⟩ := by
  simp only [process_volume_source]
  rw [hres]
  simp only [runPages, hne, if_false, if_neg hne]

/-- C3: for every resolved volume, a decode/transform/encode failure on an
individual page is logged and skipped but never aborts the volume: whatever
the page count and however many pages are corrupt, processing completes with
an archive holding exactly one entry per non-corrupt page and exactly one
logged error per corrupt page; in particular a 10-page volume with exactly
one corrupt page completes with exactly 9 entries and exactly one logged
error. -/
theorem claim_C3 (input : InputPath) (keep_temp : Bool)
    (pages : List PageFile) (hres : resolvePages input = Except.ok pages)
    (hne : pages.length ≠ 0) :
    (process_volume_source input keep_temp).1.map
        (fun r => (r.archiveEntries.length, r.errorLogs)) =
      Except.ok (pages.length - pages.countP (fun p => p.corrupt),
        pages.countP (fun p => p.corrupt)) ∧
    (pages.length = 10 → pages.countP (fun p => p.corrupt) = 1 →
      (process_volume_source input keep_temp).1.map
          (fun r => (r.archiveEntries.length, r.errorLogs)) =
        Except.ok (9, 1)) := by
  have hadd := successIdxFrom_length_add pages 1
  have hlen : (successIdxFrom pages 1).length =
      pages.length - pages.countP (fun p => p.corrupt) := by omega
  have hgen : (process_volume_source input keep_temp).1.map
      (fun r => (r.archiveEntries.length, r.errorLogs)) =
      Except.ok (pages.length - pages.countP (fun p => p.corrupt),
        pages.countP (fun p => p.corrupt)) := by
    rw [process_ok input keep_temp pages hres hne]
    simp [Except.map, pageLoop_files, pageLoop_errorLogs, List.length_map,
      hlen]
  refine ⟨hgen, fun h10 h1 => ?_⟩
  rw [hgen, h10, h1]

/-- Witness for C3 on the concrete 10-page volume with one corrupt page. -/
theorem claim_C3_witness :
    (process_volume_source inputEx10 false).1.map
        (fun r => (r.archiveEntries.length, r.errorLogs)) =
      Except.ok (9, 1) :=
  (claim_C3 inputEx10 false pagesEx10 rfl (by decide)).2 rfl rfl

/-- C4: the output archive contains exactly one entry per successful page,
named by the 4-digit zero-padded attempt index with a `.jpg` extension, in
attempt order; the entry ordinals are a strictly increasing subsequence of
the attempt indices `1..N` whose gaps are exactly at the failed pages. -/
theorem claim_C4 (input : InputPath) (keep_temp : Bool)
    (pages : List PageFile) (hres : resolvePages input = Except.ok pages)
    (hne : pages.length ≠ 0) :
    (process_volume_source input keep_temp).1.map (fun r => r.archiveEntries) =
      Except.ok ((successIdxFrom pages 1).map (fun k => pad4 k ++ ".jpg")) ∧
    (successIdxFrom pages 1).Pairwise (· < ·) ∧
    (∀ j ∈ successIdxFrom pages 1, 1 ≤ j ∧ j ≤ pages.length) ∧
    (∀ k p, pages[k]? = some p →
      ((k + 1) ∈ successIdxFrom pages 1 ↔ p.corrupt = false)) := by
  refine ⟨?_, successIdxFrom_pairwise pages 1, ?_, ?_⟩
  · rw [process_ok input keep_temp pages hres hne]
    simp [Except.map, pageLoop_files]
  · intro j hj
    refine ⟨successIdxFrom_lb pages 1 j hj, ?_⟩
    have := successIdxFrom_ub pages 1 j hj
    omega
  · intro k p hk
    have := successIdxFrom_mem pages 1 k p hk
    rwa [Nat.add_comm 1 k] at this

/-- Witness for C4 on the 4-page volume with page 2 corrupt: the archive
holds exactly `0001.jpg`, `0003.jpg`, `0004.jpg`. -/
theorem claim_C4_witness :
    ((process_volume_source inputEx4 false).1.map (fun r => r.archiveEntries) =
      Except.ok ((successIdxFrom pagesEx4 1).map (fun k => pad4 k ++ ".jpg"))) ∧
    (successIdxFrom pagesEx4 1).map (fun k => pad4 k ++ ".jpg") =
      ["0001.jpg", "0003.jpg", "0004.jpg"] :=
  ⟨(claim_C4 inputEx4 false pagesEx4 rfl (by decide)).1, by decide⟩

/-- C6: an input that is neither a directory, nor suffixed `.cbz`/`.zip`
(case-insensitively), nor an image file fails with the unsupported-input
error; a resolved sequence of zero pages fails with the no-pages-found error;
in both cases the error propagates out of `process_volume_source` and no
output archive is produced (the run yields no `VolResult`). -/
theorem claim_C6 (input : InputPath) (keep_temp : Bool) :
    (input.isDir = false →
      str_lower (path_suffix input.name) ≠ ".cbz" →
      str_lower (path_suffix input.name) ≠ ".zip" →
      is_image_file input.name = false →
      (process_volume_source input keep_temp).1 =
        Except.error VolError.unsupportedInput) ∧
    (resolvePages input = Except.ok [] →
      (process_volume_source input keep_temp).1 =
        Except.error VolError.noPagesFound) := by
  constructor
  · intro hdir hcbz hzip himg
    have c1 : ¬ (input.isDir = true) := by simp [hdir]
    have c2 : ¬ (str_lower (path_suffix input.name) = ".cbz" ∨
        str_lower (path_suffix input.name) = ".zip") := fun h => h.elim hcbz hzip
    have c3 : ¬ (is_image_file input.name = true) := by simp [himg]
    have hres : resolvePages input = Except.error VolError.unsupportedInput := by
      unfold resolvePages
      rw [if_neg c1, if_neg c2, if_neg c3]
    simp [process_volume_source, hres]
  · intro hres
    simp [process_volume_source, hres, runPages]

/-- Witness for C6: a `.txt` file input and an empty directory input. -/
theorem claim_C6_witness :
    ((process_volume_source inputExText false).1 =
      Except.error VolError.unsupportedInput) ∧
    ((process_volume_source inputExEmpty false).1 =
      Except.error VolError.noPagesFound) :=
  ⟨(claim_C6 inputExText false).1 rfl (by decide) (by decide) rfl,
    (claim_C6 inputExEmpty false).2 rfl⟩

/-- C8: the progress sink is called exactly once after each of the N page
attempts (successes and failures alike) with value `i / N * 100` for attempt
index `i`; those values are strictly increasing and the final one is 100. -/
theorem claim_C8 (input : InputPath) (keep_temp : Bool)
    (pages : List PageFile) (hres : resolvePages input = Except.ok pages)
    (hne : pages.length ≠ 0) :
    (process_volume_source input keep_temp).1.map (fun r => r.progress) =
      Except.ok ((List.range pages.length).map
        (fun k => (((k + 1 : ℕ) : ℚ) / (pages.length : ℚ) * 100))) ∧
    ((List.range pages.length).map
        (fun k => (((k + 1 : ℕ) : ℚ) / (pages.length : ℚ) * 100))).Pairwise
      (· < ·) ∧
    ((List.range pages.length).map
        (fun k => (((k + 1 : ℕ) : ℚ) / (pages.length : ℚ) * 100))).getLast? =
      some 100 := by
  have hN : 0 < pages.length := Nat.pos_of_ne_zero hne
  have hNQ : (0 : ℚ) < (pages.length : ℚ) := by exact_mod_cast hN
  refine ⟨?_, ?_, ?_⟩
  · rw [process_ok input keep_temp pages hres hne]
    simp only [Except.map]
    refine congrArg Except.ok ?_
    rw [pageLoop_progress]
    refine List.map_congr_left fun a _ => ?_
    rw [Nat.add_comm 1 a]
  · refine List.pairwise_map.mpr ?_
    refine (List.sorted_lt_range pages.length).imp ?_
    intro a b hab
    have hlt : ((a + 1 : ℕ) : ℚ) < ((b + 1 : ℕ) : ℚ) := by
      exact_mod_cast Nat.succ_lt_succ hab
    have hdiv : ((a + 1 : ℕ) : ℚ) / (pages.length : ℚ) <
        ((b + 1 : ℕ) : ℚ) / (pages.length : ℚ) :=
      div_lt_div_of_pos_right hlt hNQ
    exact mul_lt_mul_of_pos_right hdiv (by norm_num)
  · obtain ⟨m, hm⟩ : ∃ m, pages.length = m + 1 := ⟨pages.length - 1, by omega⟩
    rw [hm, List.range_succ, List.map_append, List.map_singleton,
      List.getLast?_concat]
    have hm0 : ((m + 1 : ℕ) : ℚ) ≠ 0 := by
      exact_mod_cast Nat.succ_ne_zero m
    congr 1
    rw [div_self hm0, one_mul]

/-- Witness for C8 on the 4-page volume: progress reports are
`[25, 50, 75, 100]` as `k/4*100` for `k = 1..4`. -/
theorem claim_C8_witness :
    (process_volume_source inputEx4 false).1.map (fun r => r.progress) =
      Except.ok ((List.range pagesEx4.length).map
        (fun k => (((k + 1 : ℕ) : ℚ) / (pagesEx4.length : ℚ) * 100))) :=
  (claim_C8 inputEx4 false pagesEx4 rfl (by decide)).1

/-- C10: a path whose suffix is `.cbz`/`.zip` but whose contents are not a
readable zip archive fails with the propagated zip-reading error — a distinct
failure from unsupported-input and from an isolated per-page failure — no
output archive is produced, and the scratch-directory removal is still
attempted exactly when `keep_temp` is unset. -/
theorem claim_C10 (input : InputPath) (keep_temp : Bool)
    (hdir : input.isDir = false)
    (hsuffix : str_lower (path_suffix input.name) = ".cbz" ∨
      str_lower (path_suffix input.name) = ".zip")
    (hzip : input.zipEntries = none) :
    (process_volume_source input keep_temp).1 =
      Except.error VolError.zipReadError ∧
    VolError.zipReadError ≠ VolError.unsupportedInput ∧
    VolError.zipReadError ≠ VolError.noPagesFound ∧
    (process_volume_source input keep_temp).2 = !keep_temp := by
  have c1 : ¬ (input.isDir = true) := by simp [hdir]
  have hres : resolvePages input = Except.error VolError.zipReadError := by
    unfold resolvePages
    rw [if_neg c1, if_pos hsuffix, hzip]
  refine ⟨?_, by decide, by decide, rfl⟩
  simp [process_volume_source, hres]

/-- Witness for C10 on a `.zip`-suffixed file that is not a readable zip. -/
theorem claim_C10_witness :
    (process_volume_source inputExBadZip false).1 =
      Except.error VolError.zipReadError :=
  (claim_C10 inputExBadZip false rfl (Or.inr rfl) rfl).1

end MangaKindle
